import Mathlib

/-!
Verification of the room / ceiling-height extraction core of `app.py`.

The Python source classifies positioned text fragments with regular
expressions and matches room labels to ceiling-height labels by 2-D
Euclidean distance.  This file embeds those functions shallowly:

* fragments are `Element` records; coordinates are exact rationals
  (the source uses floats; the threshold comparison `distance <= 200`
  is modelled exactly as `distanceSq <= 200 * 200`, which agrees with
  the real-number semantics because `sqrt` is monotone);
* each Python regular expression is embedded through a small
  backtracking combinator engine `M` over `List Char` that reproduces
  `re.search` semantics on ASCII text: leftmost match position wins,
  alternation is tried left to right, `*`, `+`, `{3,4}` and `?` are
  greedy with backtracking, `(?i)` is ASCII case folding;
* `heights.append`, `continue`, per-element loops and list building
  are translated to list recursion in source order.
-/

/-- A positioned text fragment, the dict built by `extract_text_from_pdf`
(keys `text`, `x`, `y`, `page`, and `is_line` for line fragments). -/
structure Element where
  text : String
  x : ℚ
  y : ℚ
  page : ℕ
  is_line : Bool
deriving Repr, DecidableEq

/-- A height candidate: the dict `{**element, "val": v, "text": display,
"matched_pattern": p}` of `find_ceiling_heights` — the original element
with its `text` overwritten by the display text. -/
structure HeightCand where
  elem : Element
  val : ℕ
  matched_pattern : String
deriving Repr, DecidableEq

/-- The dict `{**room, "ceiling_height": ..., "matched_height": ...,
"distance": ...}` built by `match_rooms_with_heights`.  The room's own
keys are kept verbatim in the `room` field; `distance_sq` is `none` when
the Python dict has no `distance` key, and otherwise holds the square of
the recorded Euclidean distance. -/
structure Match where
  room : Element
  ceiling_height : String
  matched_height : Option HeightCand
  distance_sq : Option ℚ
deriving Repr, DecidableEq

/-- One output row of `extract_from_pdf_bytes`. -/
structure Row where
  drawing_title : String
  apartment_type : String
  room : String
  ceiling_height : String
  source_file : String
deriving Repr, DecidableEq

/-! ### Character classes (ASCII model of Python `re`) -/

/-- ASCII decimal digit, Python `\d` restricted to ASCII. -/
def isDigitChar (c : Char) : Bool := decide (48 ≤ c.toNat ∧ c.toNat ≤ 57)

/-- Python `\s` on ASCII: space, tab, newline, carriage return,
vertical tab, form feed. -/
def isSpaceChar (c : Char) : Bool :=
  decide (c = ' ' ∨ c = '\t' ∨ c = '\n' ∨ c = '\r' ∨ c = '\x0b' ∨ c = '\x0c')

/-- Python `\w` on ASCII: letters, digits, underscore. -/
def isWordChar (c : Char) : Bool :=
  decide ((48 ≤ c.toNat ∧ c.toNat ≤ 57) ∨ (65 ≤ c.toNat ∧ c.toNat ≤ 90) ∨
          (97 ≤ c.toNat ∧ c.toNat ≤ 122) ∨ c.toNat = 95)

/-- ASCII letter, the character class `[A-Z]` under the `(?i)` flag. -/
def isLetterChar (c : Char) : Bool :=
  decide ((65 ≤ c.toNat ∧ c.toNat ≤ 90) ∨ (97 ≤ c.toNat ∧ c.toNat ≤ 122))

/-- ASCII upper-casing used to model the `(?i)` flag. -/
def upChar (c : Char) : Char :=
  if 97 ≤ c.toNat ∧ c.toNat ≤ 122 then Char.ofNat (c.toNat - 32) else c

/-- Value of a digit string, as computed by Python `int`. -/
def digitsToNat (ds : List Char) : ℕ := ds.foldl (fun n c => 10 * n + (c.toNat - 48)) 0

/-- Python `str.strip()`: drop ASCII whitespace from both ends. -/
def trimChars (s : List Char) : List Char :=
  ((s.dropWhile (fun c => isSpaceChar c)).reverse.dropWhile (fun c => isSpaceChar c)).reverse

def strChars (s : String) : List Char := s.data

/-! ### Backtracking regex combinators

`M α` sends an input suffix to the list of `(result, remaining input)`
pairs the pattern can produce, in the order Python's backtracking engine
would try them; the engine's overall answer is the head of that list. -/

def M (α : Type) : Type := List Char → List (α × List Char)

def mPure {α : Type} (a : α) : M α := fun s => [(a, s)]

def mFail {α : Type} : M α := fun _ => []

def mBind {α β : Type} (m : M α) (f : α → M β) : M β :=
  fun s => (m s).flatMap (fun p => f p.1 p.2)

def mThen {α : Type} (m1 : M Unit) (m2 : M α) : M α := mBind m1 (fun _ => m2)

/-- Alternation `p|q`: all results of `p` before all results of `q`. -/
def mAlt {α : Type} (m1 m2 : M α) : M α := fun s => m1 s ++ m2 s

def altList {α : Type} (ms : List (M α)) : M α := ms.foldr mAlt mFail

/-- Case-insensitive literal, e.g. `AFFL` under `(?i)`. -/
def mLit (pat : List Char) (s : List Char) : List (Unit × List Char) :=
  match pat, s with
  | [], rest => [((), rest)]
  | _ :: _, [] => []
  | c :: cs, d :: ds => if upChar d = upChar c then mLit cs ds else []

/-- Star pattern `\s*`: greedy, backtracking from the longest whitespace run down to
the empty match. -/
def mStarWs : M Unit := fun s =>
  let w := s.takeWhile (fun c => isSpaceChar c)
  (List.range (w.length + 1)).map (fun i => ((), s.drop (w.length - i)))

/-- Optional character `c?` for a literal character (used for `\+?` and `:?`): greedy, so
the consuming branch comes first. -/
def mOpt (c : Char) : M Unit := fun s =>
  match s with
  | d :: ds => if d = c then [((), ds), ((), s)] else [((), s)]
  | [] => [((), s)]

/-- Optional sub-pattern `(p)?` for a sub-pattern (used for `(?:MM)?`): greedy. -/
def mOptP (m : M Unit) : M Unit := mAlt m (mPure ())

/-- Capturing group `(\d{3,4})`: greedy, four digits tried before three; captures the
digits consumed. -/
def mDigits34 : M (List Char) := fun s =>
  let ds := s.takeWhile (fun c => isDigitChar c)
  (if 4 ≤ ds.length then [(ds.take 4, s.drop 4)] else []) ++
  (if 3 ≤ ds.length then [(ds.take 3, s.drop 3)] else [])

/-- Plus pattern `\d+`: greedy, longest digit run first. -/
def mDigitsPlus : M Unit := fun s =>
  let ds := s.takeWhile (fun c => isDigitChar c)
  (List.range ds.length).map (fun i => ((), s.drop (ds.length - i)))

/-- Character class `[A-Z]` under `(?i)`. -/
def mLetter : M Unit := fun s =>
  match s with
  | c :: rest => if isLetterChar c then [((), rest)] else []
  | [] => []

/-- Capturing group `(.+)`: greedy over non-newline characters, longest capture first. -/
def mDotPlus : M (List Char) := fun s =>
  let w := s.takeWhile (fun c => c ≠ '\n')
  (List.range w.length).map (fun i => (w.take (w.length - i), s.drop (w.length - i)))

/-- Trailing `\b` after a word character: succeeds iff the next input
character is absent or not a word character.  (All embedded patterns end
in a word character before their trailing `\b`.) -/
def mBoundary : M Unit := fun s =>
  match s with
  | [] => [((), [])]
  | c :: _ => if isWordChar c then [] else [((), s)]

/-- The span (`match.group(0)`) consumed by a pattern, in original case. -/
def mSpan (m : M Unit) : M (List Char) :=
  fun s => (m s).map (fun p => (s.take (s.length - p.2.length), p.2))

/-- Search as `re.search`: try the pattern at each position, leftmost first; at a
given position take the backtracking engine's first result. -/
def search {α : Type} (m : M α) : List Char → Option α
  | [] => ((m []).head?).map Prod.fst
  | c :: rest =>
    match ((m (c :: rest)).head?).map Prod.fst with
    | some a => some a
    | none => search m rest

/-- Search as `re.search` for a pattern beginning with `\b` followed by a word
character: the position is tried only when it is the start of the input
or preceded by a non-word character. -/
def searchBFrom {α : Type} (m : M α) : Bool → List Char → Option α
  | _, [] => none
  | ok, c :: rest =>
    match (if ok then ((m (c :: rest)).head?).map Prod.fst else none) with
    | some a => some a
    | none => searchBFrom m (!(isWordChar c)) rest

def searchB {α : Type} (m : M α) (s : List Char) : Option α := searchBFrom m true s

/-! ### The concrete patterns of `app.py` -/

/-- Label alternation `(?:AFFL|FFL|LEVEL)` of `AFFL_REGEX`. -/
def afflLabel : M Unit :=
  mAlt (mLit (strChars "AFFL")) (mAlt (mLit (strChars "FFL")) (mLit (strChars "LEVEL")))

/-- Pattern `AFFL_REGEX = (?i)(?:AFFL|FFL|LEVEL)\s*\+?\s*(\d{3,4})`, yielding
`int(match.group(1))`. -/
def afflPat : M ℕ :=
  mThen afflLabel (mThen mStarWs (mThen (mOpt '+') (mThen mStarWs
    (mBind mDigits34 (fun ds => mPure (digitsToNat ds))))))

def afflSearch (s : String) : Option ℕ := search afflPat s.data

/-- Label alternation `(?:CEILING|HEIGHT|C\.H\.|CH)` of `HEIGHT_REGEX`. -/
def heightLabel : M Unit :=
  altList [mLit (strChars "CEILING"), mLit (strChars "HEIGHT"),
           mLit (strChars "C.H."), mLit (strChars "CH")]

/-- Pattern `HEIGHT_REGEX = (?i)(?:CEILING|HEIGHT|C\.H\.|CH)\s*:?\s*(\d{3,4})\s*(?:MM)?`,
yielding `int(match.group(1))`. -/
def heightPat : M ℕ :=
  mThen heightLabel (mThen mStarWs (mThen (mOpt ':') (mThen mStarWs
    (mBind mDigits34 (fun ds =>
      mThen mStarWs (mThen (mOptP (mLit (strChars "MM"))) (mPure (digitsToNat ds))))))))

def heightSearch (s : String) : Option ℕ := search heightPat s.data

/-- Test and value of the bare-numeric branch: searching the anchored
pattern of three or four digits in the stripped text, followed by
`int(text.strip())` — the trimmed text is exactly three or four digits. -/
def bareNumeric (s : String) : Option ℕ :=
  let t := trimChars s.data
  if (t.length = 3 ∨ t.length = 4) ∧ t.all (fun c => isDigitChar c) then
    some (digitsToNat t)
  else none

/-- Label alternation `(?:DRAWING\s*TITLE|TITLE|DWG\s*TITLE)` of `DRAWING_TITLE_REGEX`. -/
def titleLabel : M Unit :=
  altList [mThen (mLit (strChars "DRAWING")) (mThen mStarWs (mLit (strChars "TITLE"))),
           mLit (strChars "TITLE"),
           mThen (mLit (strChars "DWG")) (mThen mStarWs (mLit (strChars "TITLE")))]

/-- Pattern `DRAWING_TITLE_REGEX = (?i)(?:DRAWING\s*TITLE|TITLE|DWG\s*TITLE)\s*:?\s*(.+)`,
yielding the characters of `match.group(1)`. -/
def titlePat : M (List Char) :=
  mThen titleLabel (mThen mStarWs (mThen (mOpt ':') (mThen mStarWs mDotPlus)))

/-- Group value `match.group(1).strip()` of the drawing-title search. -/
def titleGroup (s : String) : Option String :=
  (search titlePat s.data).map (fun g => String.mk (trimChars g))

/-- Keyword pattern `(?i)(floor\s*plan|ceiling\s*plan|rcp|reflected)`, the keyword
fallback inside `extract_drawing_title`. -/
def keywordPat : M Unit :=
  altList [mThen (mLit (strChars "FLOOR")) (mThen mStarWs (mLit (strChars "PLAN"))),
           mThen (mLit (strChars "CEILING")) (mThen mStarWs (mLit (strChars "PLAN"))),
           mLit (strChars "RCP"),
           mLit (strChars "REFLECTED")]

def keywordFound (s : String) : Bool := (search keywordPat s.data).isSome

/-- Alternative `\d+\s*BED\s*TYPE\s*[A-Z]`, the first alternative of `APT_REGEX`. -/
def aptAlt1 : M Unit :=
  mThen mDigitsPlus (mThen mStarWs (mThen (mLit (strChars "BED")) (mThen mStarWs
    (mThen (mLit (strChars "TYPE")) (mThen mStarWs mLetter)))))

/-- Alternative `TYPE\s*[A-Z]\s*\d+\s*BED`, the second alternative of `APT_REGEX`. -/
def aptAlt2 : M Unit :=
  mThen (mLit (strChars "TYPE")) (mThen mStarWs (mThen mLetter (mThen mStarWs
    (mThen mDigitsPlus (mThen mStarWs (mLit (strChars "BED")))))))

/-- Pattern `APT_REGEX = (?i)\b(\d+\s*BED\s*TYPE\s*[A-Z]|TYPE\s*[A-Z]\s*\d+\s*BED)\b`;
`aptSearch` yields `match.group(0)` in original case. -/
def aptPat : M (List Char) := mSpan (mThen (mAlt aptAlt1 aptAlt2) mBoundary)

def aptSearch (s : String) : Option String :=
  (searchB aptPat s.data).map (fun cs => String.mk cs)

/-- Fallback pattern `(?i)\bTYPE\s*[A-Z]\b`, first fallback test of `extract_apartment_type`. -/
def typeLetterPat : M Unit := mThen (mLit (strChars "TYPE")) (mThen mStarWs (mThen mLetter mBoundary))

/-- Fallback pattern `(?i)\bBED\b`, second fallback test of `extract_apartment_type`. -/
def bedPat : M Unit := mThen (mLit (strChars "BED")) mBoundary

/-- The conjunction of the two fallback searches of `extract_apartment_type`. -/
def aptFallback (s : String) : Bool :=
  (searchB typeLetterPat s.data).isSome && (searchB bedPat s.data).isSome

/-- Pattern `ROOM_REGEX = (?i)\b(BEDROOM|BED|KITCHEN|LIVING|DINING|BATH|TOILET|BALCONY|MASTER|GUEST|ROOM)\b`. -/
def roomPat : M Unit :=
  mThen (altList [mLit (strChars "BEDROOM"), mLit (strChars "BED"),
                  mLit (strChars "KITCHEN"), mLit (strChars "LIVING"),
                  mLit (strChars "DINING"), mLit (strChars "BATH"),
                  mLit (strChars "TOILET"), mLit (strChars "BALCONY"),
                  mLit (strChars "MASTER"), mLit (strChars "GUEST"),
                  mLit (strChars "ROOM")]) mBoundary

def roomFound (s : String) : Bool := (searchB roomPat s.data).isSome

/-! ### The classifier functions of `app.py` -/

/-- Loop body of `extract_drawing_title`: per element, first the title
regex (returning the trimmed captured group), then the keyword regex
(returning the whole text); otherwise move to the next element. -/
def extract_drawing_title : List Element → String
  | [] => "Unknown Drawing"
  | e :: rest =>
    match titleGroup e.text with
    | some t => t
    | none => if keywordFound e.text then e.text else extract_drawing_title rest

/-- Function `extract_apartment_type`: one full pass with `APT_REGEX` (returning
`match.group(0)` of the first hit), then a second full pass with the two
fallback searches, then the sentinel. -/
def extract_apartment_type (text_elements : List Element) : String :=
  match text_elements.findSome? (fun e => aptSearch e.text) with
  | some span => span
  | none =>
    match text_elements.find? (fun e => aptFallback e.text) with
    | some e => e.text
    | none => "Unknown Type"

/-- The AFFL branch of the `find_ceiling_heights` loop body (the appended
dict, guarded by the `2000 <= height_val <= 4000` range check). -/
def afflCandOf (e : Element) : Option HeightCand :=
  match afflSearch e.text with
  | some v =>
    if 2000 ≤ v ∧ v ≤ 4000 then
      some { elem := { e with text := "+" ++ toString v }, val := v, matched_pattern := "AFFL" }
    else none
  | none => none

/-- The HEIGHT branch of the `find_ceiling_heights` loop body. -/
def labeledCandOf (e : Element) : Option HeightCand :=
  match heightSearch e.text with
  | some v =>
    if 2000 ≤ v ∧ v ≤ 4000 then
      some { elem := { e with text := toString v ++ "mm" }, val := v, matched_pattern := "HEIGHT" }
    else none
  | none => none

/-- The bare-numeric branch of the `find_ceiling_heights` loop body. -/
def numericCandOf (e : Element) : Option HeightCand :=
  match bareNumeric e.text with
  | some v =>
    if 2000 ≤ v ∧ v ≤ 4000 then
      some { elem := { e with text := toString v ++ "mm" }, val := v, matched_pattern := "NUMERIC" }
    else none
  | none => none

/-- One iteration of the `find_ceiling_heights` loop: an in-range AFFL
match appends and `continue`s; otherwise the HEIGHT branch and then the
bare-numeric branch each may append. -/
def heightCandsOf (e : Element) : List HeightCand :=
  match afflCandOf e with
  | some c => [c]
  | none => (labeledCandOf e).toList ++ (numericCandOf e).toList

/-- Function `find_ceiling_heights`: the loop appends each element's candidates in
element order. -/
def find_ceiling_heights : List Element → List HeightCand
  | [] => []
  | e :: rest => heightCandsOf e ++ find_ceiling_heights rest

/-- Function `find_rooms`: keep the elements whose text matches `ROOM_REGEX`. -/
def find_rooms (text_elements : List Element) : List Element :=
  text_elements.filter (fun e => roomFound e.text)

/-! ### The spatial matcher of `app.py` -/

/-- The square of `calculate_distance` (which returns
`((x1-x2)**2 + (y1-y2)**2)**0.5`); all comparisons in the matcher are
against squares, which is equivalent since `sqrt` is monotone. -/
def calculate_distance_sq (e1 e2 : Element) : ℚ :=
  (e1.x - e2.x) * (e1.x - e2.x) + (e1.y - e2.y) * (e1.y - e2.y)

/-- Call `min(heights, key=lambda h: calculate_distance(room, h))`: Python's
`min` keeps the current best and replaces it only on a strictly smaller
key, so the first element attaining the minimum wins. -/
def nearestHeight (room : Element) (h : HeightCand) (hs : List HeightCand) : HeightCand :=
  hs.foldl (fun best c =>
    if calculate_distance_sq room c.elem < calculate_distance_sq room best.elem then c else best) h

/-- Loop body of `match_rooms_with_heights` for one room. -/
def matchRoom (max_distance : ℚ) (heights : List HeightCand) (room : Element) : Match :=
  match heights with
  | [] => { room := room, ceiling_height := "N/A", matched_height := none, distance_sq := none }
  | h :: hs =>
    let nh := nearestHeight room h hs
    let dsq := calculate_distance_sq room nh.elem
    if dsq ≤ max_distance * max_distance then
      { room := room, ceiling_height := nh.elem.text, matched_height := some nh,
        distance_sq := some dsq }
    else
      { room := room, ceiling_height := "N/A (No nearby height)", matched_height := none,
        distance_sq := some dsq }

/-- Function `match_rooms_with_heights(rooms, heights, max_distance=200)`; the
repository always calls it with the default threshold `200`. -/
def match_rooms_with_heights (rooms : List Element) (heights : List HeightCand)
    (max_distance : ℚ) : List Match :=
  rooms.map (matchRoom max_distance heights)

/-! ### Row assembly of `extract_from_pdf_bytes`

Fragment extraction (`extract_text_from_pdf`, a `pdfplumber` call) is the
external collaborator; its outcome is passed in as
`Except String (List Element)`, where `error msg` stands for a raised
exception whose `str` is `msg`.  The `try/except` around the whole body
becomes the `error` branch. -/

def extract_from_pdf_bytes (res : Except String (List Element)) (filename : String) : List Row :=
  match res with
  | .error e =>
    [{ drawing_title := "Error", apartment_type := "Error",
       room := "Extraction failed: " ++ e, ceiling_height := "N/A", source_file := filename }]
  | .ok text_elements =>
    if text_elements.isEmpty then
      [{ drawing_title := "No text found", apartment_type := "N/A",
         room := "No extractable text", ceiling_height := "N/A", source_file := filename }]
    else
      let drawing_title := extract_drawing_title text_elements
      let apartment_type := extract_apartment_type text_elements
      let rooms := find_rooms text_elements
      let heights := find_ceiling_heights text_elements
      let matched_data := match_rooms_with_heights rooms heights 200
      let rows := matched_data.map (fun m =>
        { drawing_title := drawing_title, apartment_type := apartment_type,
          room := m.room.text, ceiling_height := m.ceiling_height, source_file := filename })
      let rows1 := if rows.isEmpty && !heights.isEmpty then
        rows ++ [{ drawing_title := drawing_title, apartment_type := apartment_type,
                   room := "Heights Found (No Room Labels)",
                   ceiling_height := String.intercalate ", " ((heights.take 3).map (fun h => h.elem.text)),
                   source_file := filename }]
        else rows
      let rows2 := if rows1.isEmpty then
        rows1 ++ [{ drawing_title := drawing_title, apartment_type := apartment_type,
                    room := "No Room/Height Data Extracted",
                    ceiling_height := "N/A", source_file := filename }]
        else rows1
      rows2

/-! ### Lemmas about the spatial matcher -/

theorem nearestHeight_cons (room : Element) (h c : HeightCand) (cs : List HeightCand) :
    nearestHeight room h (c :: cs) =
      nearestHeight room
        (if calculate_distance_sq room c.elem < calculate_distance_sq room h.elem then c else h)
        cs := rfl

/-- The candidate returned by `min(heights, key=...)` attains the minimum
distance over the whole candidate list. -/
theorem nearestHeight_le (room : Element) (hs : List HeightCand) :
    ∀ (h : HeightCand), ∀ y ∈ h :: hs,
      calculate_distance_sq room (nearestHeight room h hs).elem ≤
        calculate_distance_sq room y.elem := by
  induction hs with
  | nil =>
    intro h y hy
    rcases List.mem_singleton.mp hy with rfl
    exact le_refl _
  | cons c cs ih =>
    intro h y hy
    rw [nearestHeight_cons]
    have hle_h : calculate_distance_sq room
        (if calculate_distance_sq room c.elem < calculate_distance_sq room h.elem then c else h).elem ≤
        calculate_distance_sq room h.elem := by
      split
      · exact le_of_lt (by assumption)
      · exact le_refl _
    have hle_c : calculate_distance_sq room
        (if calculate_distance_sq room c.elem < calculate_distance_sq room h.elem then c else h).elem ≤
        calculate_distance_sq room c.elem := by
      split
      · exact le_refl _
      · exact le_of_not_lt (by assumption)
    have hmin := ih (if calculate_distance_sq room c.elem < calculate_distance_sq room h.elem then c else h)
      (if calculate_distance_sq room c.elem < calculate_distance_sq room h.elem then c else h)
      (List.mem_cons_self _ _)
    rcases List.mem_cons.mp hy with rfl | hy2
    · exact hmin.trans hle_h
    · rcases List.mem_cons.mp hy2 with rfl | hy3
      · exact hmin.trans hle_c
      · exact ih _ y (List.mem_cons_of_mem _ hy3)

/-- Python's `min` keeps the first element attaining the minimum: if the
candidate list splits as `pre ++ x :: post` with every element of `pre`
strictly farther than `x` and every element of `post` no closer than `x`,
then `x` is selected. -/
theorem nearestHeight_first (room : Element) (hs : List HeightCand) :
    ∀ (h x : HeightCand) (pre post : List HeightCand),
      h :: hs = pre ++ x :: post →
      (∀ y ∈ pre, calculate_distance_sq room x.elem < calculate_distance_sq room y.elem) →
      (∀ y ∈ post, calculate_distance_sq room x.elem ≤ calculate_distance_sq room y.elem) →
      nearestHeight room h hs = x := by
  induction hs with
  | nil =>
    intro h x pre post hsplit hpre hpost
    cases pre with
    | nil =>
      obtain ⟨rfl, rfl⟩ := List.cons.inj hsplit
      rfl
    | cons p pre2 =>
      have hlen := congrArg List.length hsplit
      simp only [List.length_cons, List.length_append, List.length_nil] at hlen
      omega
  | cons c cs ih =>
    intro h x pre post hsplit hpre hpost
    rw [nearestHeight_cons]
    cases pre with
    | nil =>
      obtain ⟨rfl, rfl⟩ := List.cons.inj hsplit
      have hc : calculate_distance_sq room h.elem ≤ calculate_distance_sq room c.elem :=
        hpost c (List.mem_cons_self _ _)
      rw [if_neg (not_lt.mpr hc)]
      exact ih h h [] cs rfl (by intro y hy; cases hy)
        (fun y hy => hpost y (List.mem_cons_of_mem _ hy))
    | cons p pre2 =>
      obtain ⟨rfl, h2⟩ := List.cons.inj hsplit
      cases pre2 with
      | nil =>
        obtain ⟨rfl, rfl⟩ := List.cons.inj h2
        have hp : calculate_distance_sq room c.elem < calculate_distance_sq room h.elem :=
          hpre h (List.mem_cons_self _ _)
        rw [if_pos hp]
        exact ih c c [] cs rfl (by intro y hy; cases hy) hpost
      | cons q pre3 =>
        obtain ⟨rfl, h4⟩ := List.cons.inj h2
        have hp : calculate_distance_sq room x.elem < calculate_distance_sq room h.elem :=
          hpre h (List.mem_cons_self _ _)
        have hq : calculate_distance_sq room x.elem < calculate_distance_sq room c.elem :=
          hpre c (List.mem_cons_of_mem _ (List.mem_cons_self _ _))
        apply ih _ x
          ((if calculate_distance_sq room c.elem < calculate_distance_sq room h.elem then c else h) :: pre3)
          post
        · rw [h4]; rfl
        · intro y hy
          rcases List.mem_cons.mp hy with rfl | hy2
          · split
            · exact hq
            · exact hp
          · exact hpre y (List.mem_cons_of_mem _ (List.mem_cons_of_mem _ hy2))
        · exact hpost

/-- The match dict is `{**room, ...}`: its room-derived fields are the
input room's, for every status branch. -/
theorem matchRoom_room (d : ℚ) (hs : List HeightCand) (r : Element) :
    (matchRoom d hs r).room = r := by
  cases hs with
  | nil => rfl
  | cons h t =>
    simp only [matchRoom]
    split
    · rfl
    · rfl

section MatcherClaims

attribute [local semireducible] Rat.mul Rat.add Rat.sub

/-- Claim C1: for every list of room candidates and every list of height
candidates (and any threshold, in particular the repository's 200),
`match_rooms_with_heights` returns exactly one `Match` per room
candidate, regardless of the height list, the rooms' texts or their
coordinates. -/
theorem c1_one_match_per_room (rooms : List Element) (heights : List HeightCand)
    (max_distance : ℚ) :
    (match_rooms_with_heights rooms heights max_distance).length = rooms.length := by
  simp [match_rooms_with_heights]

/-- Claim C10: the i-th `Match` carries the i-th room fragment's own
fields unchanged (its `text`, `x`, `y`, `page` and `is_line` are exactly
those of the input room candidate, for every status branch); matching
only adds the `ceiling_height`, `matched_height` and `distance` fields.
The input lists are untouched: `match_rooms_with_heights` is a pure
function of its arguments. -/
theorem c10_room_fields_preserved (rooms : List Element) (heights : List HeightCand)
    (max_distance : ℚ) (i : ℕ) :
    ((match_rooms_with_heights rooms heights max_distance)[i]?).map Match.room = rooms[i]? := by
  simp only [match_rooms_with_heights, List.getElem?_map]
  cases h : rooms[i]? with
  | none => rfl
  | some r => simp [matchRoom_room]

/-- Claim C3: for a room and a non-empty height-candidate list, the
selected candidate attains the minimum distance, and the room is MATCHED
(ceiling height = the nearest candidate's display text, candidate and
distance recorded) exactly when that minimum distance is at most 200 —
squared distances are compared against `200 * 200`, which is equivalent
to comparing Euclidean distances against 200; a nearest candidate at any
strictly greater distance instead yields the
`"N/A (No nearby height)"` row with no matched height but with the
distance still recorded. -/
theorem c3_threshold_boundary (room : Element) (h : HeightCand) (hs : List HeightCand) :
    (∀ y ∈ h :: hs,
        calculate_distance_sq room (nearestHeight room h hs).elem ≤
          calculate_distance_sq room y.elem)
  ∧ (calculate_distance_sq room (nearestHeight room h hs).elem ≤ 200 * 200 →
      matchRoom 200 (h :: hs) room =
        { room := room, ceiling_height := (nearestHeight room h hs).elem.text,
          matched_height := some (nearestHeight room h hs),
          distance_sq := some (calculate_distance_sq room (nearestHeight room h hs).elem) })
  ∧ (200 * 200 < calculate_distance_sq room (nearestHeight room h hs).elem →
      matchRoom 200 (h :: hs) room =
        { room := room, ceiling_height := "N/A (No nearby height)", matched_height := none,
          distance_sq := some (calculate_distance_sq room (nearestHeight room h hs).elem) }) := by
  refine ⟨nearestHeight_le room hs h, ?_, ?_⟩
  · intro hle
    simp only [matchRoom]
    rw [if_pos hle]
  · intro hgt
    simp only [matchRoom]
    rw [if_neg (not_le.mpr hgt)]

/-- Witness for C3 at concrete inputs: a height at squared distance
exactly `40000 = 200 * 200` (offset (120,160)) is MATCHED, and a height
at squared distance `250000` (offset (300,400), distance 500 > 200)
yields the no-nearby-height row with the distance recorded. -/
theorem c3_threshold_boundary_witness :
    matchRoom 200 [⟨⟨"+2700", 120, 160, 0, false⟩, 2700, "AFFL"⟩] ⟨"LIVING ROOM", 0, 0, 0, false⟩ =
      { room := ⟨"LIVING ROOM", 0, 0, 0, false⟩, ceiling_height := "+2700",
        matched_height := some ⟨⟨"+2700", 120, 160, 0, false⟩, 2700, "AFFL"⟩,
        distance_sq := some 40000 }
  ∧ matchRoom 200 [⟨⟨"+2700", 300, 400, 0, false⟩, 2700, "AFFL"⟩] ⟨"LIVING ROOM", 0, 0, 0, false⟩ =
      { room := ⟨"LIVING ROOM", 0, 0, 0, false⟩,
        ceiling_height := "N/A (No nearby height)", matched_height := none,
        distance_sq := some 250000 } := by
  constructor
  · exact ((c3_threshold_boundary ⟨"LIVING ROOM", 0, 0, 0, false⟩
      ⟨⟨"+2700", 120, 160, 0, false⟩, 2700, "AFFL"⟩ []).2.1 (by decide)).trans (by decide)
  · exact ((c3_threshold_boundary ⟨"LIVING ROOM", 0, 0, 0, false⟩
      ⟨⟨"+2700", 300, 400, 0, false⟩, 2700, "AFFL"⟩ []).2.2 (by decide)).trans (by decide)

/-- Claim C7: when two candidates sit at the exact same minimum distance
from a room, the matcher selects the one occurring first in the candidate
list: if the list splits as `pre ++ x :: mid ++ y :: post` with `x` and
`y` equidistant, that distance minimal, and everything before `x`
strictly farther, then `x` is chosen, and (within the radius) it is the
recorded matched height.  The function is deterministic by construction
(it is a pure function of its arguments), so repeated runs on identical
input produce identical matches. -/
theorem c7_tie_first_wins (room : Element) (h : HeightCand) (hs : List HeightCand)
    (x y : HeightCand) (pre mid post : List HeightCand)
    (hsplit : h :: hs = pre ++ x :: (mid ++ y :: post))
    (_heq : calculate_distance_sq room x.elem = calculate_distance_sq room y.elem)
    (hmin : ∀ z ∈ h :: hs, calculate_distance_sq room x.elem ≤ calculate_distance_sq room z.elem)
    (hpre : ∀ z ∈ pre, calculate_distance_sq room x.elem < calculate_distance_sq room z.elem) :
    nearestHeight room h hs = x
  ∧ (calculate_distance_sq room x.elem ≤ 200 * 200 →
      (matchRoom 200 (h :: hs) room).matched_height = some x) := by
  have hx : nearestHeight room h hs = x := by
    apply nearestHeight_first room hs h x pre (mid ++ y :: post) hsplit hpre
    intro z hz
    exact hmin z (by rw [hsplit]; exact List.mem_append_right _ (List.mem_cons_of_mem _ hz))
  refine ⟨hx, fun hle => ?_⟩
  cases hs with
  | nil =>
    have := congrArg List.length hsplit
    simp only [List.length_cons, List.length_append, List.length_nil] at this
    omega
  | cons c cs =>
    simp only [matchRoom]
    rw [nearestHeight_cons] at hx ⊢
    rw [hx, if_pos hle]

/-- Witness for C7: two candidates both at squared distance 25 from the
room (offsets (3,4) and (4,3)); the first one in the list is selected and
matched. -/
theorem c7_tie_first_wins_witness :
    nearestHeight ⟨"KITCHEN", 0, 0, 0, false⟩ ⟨⟨"+2500", 3, 4, 0, false⟩, 2500, "AFFL"⟩
        [⟨⟨"+3000", 4, 3, 0, false⟩, 3000, "AFFL"⟩] =
      ⟨⟨"+2500", 3, 4, 0, false⟩, 2500, "AFFL"⟩
  ∧ (matchRoom 200
        [⟨⟨"+2500", 3, 4, 0, false⟩, 2500, "AFFL"⟩, ⟨⟨"+3000", 4, 3, 0, false⟩, 3000, "AFFL"⟩]
        ⟨"KITCHEN", 0, 0, 0, false⟩).matched_height =
      some ⟨⟨"+2500", 3, 4, 0, false⟩, 2500, "AFFL"⟩ := by
  have hc := c7_tie_first_wins ⟨"KITCHEN", 0, 0, 0, false⟩
    ⟨⟨"+2500", 3, 4, 0, false⟩, 2500, "AFFL"⟩ [⟨⟨"+3000", 4, 3, 0, false⟩, 3000, "AFFL"⟩]
    ⟨⟨"+2500", 3, 4, 0, false⟩, 2500, "AFFL"⟩ ⟨⟨"+3000", 4, 3, 0, false⟩, 3000, "AFFL"⟩
    [] [] [] rfl (by decide) (by decide) (by intro z hz; cases hz)
  exact ⟨hc.1, hc.2 (by decide)⟩

end MatcherClaims

/-! ### Lemmas about height-candidate classification -/

theorem afflCandOf_some (e : Element) (c : HeightCand) (h : afflCandOf e = some c) :
    2000 ≤ c.val ∧ c.val ≤ 4000 := by
  unfold afflCandOf at h
  split at h
  · split at h
    · next hr => obtain rfl := Option.some.inj h; exact hr
    · exact absurd h (by simp)
  · exact absurd h (by simp)

theorem labeledCandOf_some (e : Element) (c : HeightCand) (h : labeledCandOf e = some c) :
    2000 ≤ c.val ∧ c.val ≤ 4000 := by
  unfold labeledCandOf at h
  split at h
  · split at h
    · next hr => obtain rfl := Option.some.inj h; exact hr
    · exact absurd h (by simp)
  · exact absurd h (by simp)

theorem numericCandOf_some (e : Element) (c : HeightCand) (h : numericCandOf e = some c) :
    2000 ≤ c.val ∧ c.val ≤ 4000 := by
  unfold numericCandOf at h
  split at h
  · split at h
    · next hr => obtain rfl := Option.some.inj h; exact hr
    · exact absurd h (by simp)
  · exact absurd h (by simp)

theorem heightCandsOf_mem_val (e : Element) (c : HeightCand) (h : c ∈ heightCandsOf e) :
    2000 ≤ c.val ∧ c.val ≤ 4000 := by
  unfold heightCandsOf at h
  cases ha : afflCandOf e with
  | none =>
    rw [ha] at h
    rcases List.mem_append.mp h with h1 | h2
    · cases hl : labeledCandOf e with
      | none => rw [hl] at h1; cases h1
      | some l =>
        rw [hl] at h1
        simp only [Option.toList, List.mem_singleton] at h1
        subst h1
        exact labeledCandOf_some e _ hl
    · cases hn : numericCandOf e with
      | none => rw [hn] at h2; cases h2
      | some n =>
        rw [hn] at h2
        simp only [Option.toList, List.mem_singleton] at h2
        subst h2
        exact numericCandOf_some e _ hn
  | some a =>
    rw [ha] at h
    simp only [List.mem_singleton] at h
    subst h
    exact afflCandOf_some e _ ha

/-! ### The labeled and bare-numeric branches exclude each other

A fragment recognised by the bare-numeric test consists of whitespace and
digits only, so the `HEIGHT_REGEX` labels (`CEILING`, `HEIGHT`, `C.H.`,
`CH`), which all start with a letter, cannot match it anywhere. -/

theorem search_eq_none {α : Type} (m : M α) (s : List Char)
    (h : ∀ t, t <:+ s → m t = []) : search m s = none := by
  induction s with
  | nil => simp [search, h [] List.suffix_rfl]
  | cons c rest ih =>
    have h0 : m (c :: rest) = [] := h _ List.suffix_rfl
    simp only [search, h0, List.head?, Option.map]
    exact ih (fun t ht => h t (ht.trans (List.suffix_cons c rest)))

theorem mLit_ne_head (p d : Char) (ps ds : List Char) (h : upChar d ≠ upChar p) :
    mLit (p :: ps) (d :: ds) = [] := by
  simp only [mLit]
  rw [if_neg h]

theorem heightLabel_cons (c : Char) (r : List Char)
    (hC : upChar c ≠ 'C') (hH : upChar c ≠ 'H') : heightLabel (c :: r) = [] := by
  have e1 : strChars "CEILING" = 'C' :: strChars "EILING" := rfl
  have e2 : strChars "HEIGHT" = 'H' :: strChars "EIGHT" := rfl
  have e3 : strChars "C.H." = 'C' :: strChars ".H." := rfl
  have e4 : strChars "CH" = 'C' :: strChars "H" := rfl
  have hCC : upChar 'C' = 'C' := by decide
  have hHH : upChar 'H' = 'H' := by decide
  have n1 : mLit (strChars "CEILING") (c :: r) = [] := by
    rw [e1]; exact mLit_ne_head _ _ _ _ (by rw [hCC]; exact hC)
  have n2 : mLit (strChars "HEIGHT") (c :: r) = [] := by
    rw [e2]; exact mLit_ne_head _ _ _ _ (by rw [hHH]; exact hH)
  have n3 : mLit (strChars "C.H.") (c :: r) = [] := by
    rw [e3]; exact mLit_ne_head _ _ _ _ (by rw [hCC]; exact hC)
  have n4 : mLit (strChars "CH") (c :: r) = [] := by
    rw [e4]; exact mLit_ne_head _ _ _ _ (by rw [hCC]; exact hC)
  simp [heightLabel, altList, mAlt, mFail, n1, n2, n3, n4]

theorem heightPat_cons (c : Char) (r : List Char)
    (hC : upChar c ≠ 'C') (hH : upChar c ≠ 'H') : heightPat (c :: r) = [] := by
  have h0 := heightLabel_cons c r hC hH
  simp [heightPat, mThen, mBind, h0]

theorem upChar_ne_CH_of_ws_or_digit (c : Char)
    (h : isSpaceChar c = true ∨ isDigitChar c = true) :
    upChar c ≠ 'C' ∧ upChar c ≠ 'H' := by
  rcases h with h | h
  · simp only [isSpaceChar, decide_eq_true_eq] at h
    rcases h with rfl | rfl | rfl | rfl | rfl | rfl <;> exact ⟨by decide, by decide⟩
  · simp only [isDigitChar, decide_eq_true_eq] at h
    have hup : upChar c = c := by
      unfold upChar
      rw [if_neg (by omega)]
    rw [hup]
    constructor
    · intro hc; rw [hc] at h; revert h; decide
    · intro hc; rw [hc] at h; revert h; decide

theorem mem_ws_or_trim (s : List Char) (c : Char) (hc : c ∈ s) :
    isSpaceChar c = true ∨ c ∈ trimChars s := by
  have hsplit : c ∈ s.takeWhile (fun x => isSpaceChar x) ++ s.dropWhile (fun x => isSpaceChar x) := by
    rw [List.takeWhile_append_dropWhile]; exact hc
  rcases List.mem_append.mp hsplit with h1 | h2
  · exact Or.inl (List.mem_takeWhile_imp h1)
  · have h3 : c ∈ (s.dropWhile (fun x => isSpaceChar x)).reverse := List.mem_reverse.mpr h2
    have hsplit2 : c ∈ (s.dropWhile (fun x => isSpaceChar x)).reverse.takeWhile (fun x => isSpaceChar x) ++
        (s.dropWhile (fun x => isSpaceChar x)).reverse.dropWhile (fun x => isSpaceChar x) := by
      rw [List.takeWhile_append_dropWhile]; exact h3
    rcases List.mem_append.mp hsplit2 with h4 | h5
    · exact Or.inl (List.mem_takeWhile_imp h4)
    · exact Or.inr (List.mem_reverse.mpr h5)

theorem bareNumeric_chars (s : String) (v : ℕ) (h : bareNumeric s = some v) :
    ∀ c ∈ s.data, isSpaceChar c = true ∨ isDigitChar c = true := by
  intro c hc
  simp only [bareNumeric] at h
  split at h
  · next hcond =>
    rcases mem_ws_or_trim s.data c hc with hws | htr
    · exact Or.inl hws
    · exact Or.inr ((List.all_eq_true.mp hcond.2) c htr)
  · exact absurd h (by simp)

theorem heightSearch_eq_none_of_ws_digit (s : String)
    (h : ∀ c ∈ s.data, isSpaceChar c = true ∨ isDigitChar c = true) :
    heightSearch s = none := by
  unfold heightSearch
  apply search_eq_none
  intro t ht
  cases t with
  | nil => decide
  | cons c r =>
    have hcs : c ∈ s.data := ht.subset (List.mem_cons_self c r)
    obtain ⟨hC, hH⟩ := upChar_ne_CH_of_ws_or_digit c (h c hcs)
    exact heightPat_cons c r hC hH

theorem labeledCandOf_eq_none_of_numeric (e : Element) (c : HeightCand)
    (h : numericCandOf e = some c) : labeledCandOf e = none := by
  unfold numericCandOf at h
  rcases hb : bareNumeric e.text with _ | v
  · rw [hb] at h; exact absurd h (by simp)
  · unfold labeledCandOf
    rw [heightSearch_eq_none_of_ws_digit e.text (bareNumeric_chars e.text v hb)]

theorem heightCandsOf_length (e : Element) : (heightCandsOf e).length ≤ 1 := by
  unfold heightCandsOf
  rcases ha : afflCandOf e with _ | a
  · rcases hn : numericCandOf e with _ | n
    · cases labeledCandOf e <;> simp
    · rw [labeledCandOf_eq_none_of_numeric e n hn]
      simp
  · simp

/-- Claim C2: every `HeightCandidate` produced by `find_ceiling_heights`
has a value in the inclusive range [2000, 4000]; a fragment whose text
matches a height pattern syntactically but parses strictly outside that
range, such as `"AFFL+1500"`, contributes no candidate — not an error,
just an empty contribution. -/
theorem c2_height_range :
    (∀ (text_elements : List Element) (c : HeightCand),
        c ∈ find_ceiling_heights text_elements → 2000 ≤ c.val ∧ c.val ≤ 4000)
  ∧ find_ceiling_heights [⟨"AFFL+1500", 0, 0, 0, false⟩] = [] := by
  constructor
  · intro es c hc
    induction es with
    | nil => cases hc
    | cons e rest ih =>
      rw [find_ceiling_heights] at hc
      rcases List.mem_append.mp hc with h1 | h2
      · exact heightCandsOf_mem_val e c h1
      · exact ih h2
  · decide

/-- Witness for C2: the fragment `"AFFL+2700"` produces the candidate
`+2700`, whose value the theorem bounds inside [2000, 4000]. -/
theorem c2_height_range_witness :
    2000 ≤ (⟨⟨"+2700", 0, 0, 0, false⟩, 2700, "AFFL"⟩ : HeightCand).val ∧
    (⟨⟨"+2700", 0, 0, 0, false⟩, 2700, "AFFL"⟩ : HeightCand).val ≤ 4000 :=
  c2_height_range.1 [⟨"AFFL+2700", 0, 0, 0, false⟩]
    ⟨⟨"+2700", 0, 0, 0, false⟩, 2700, "AFFL"⟩ (by decide)

/-- Claim C4: each fragment contributes at most one `HeightCandidate`;
an in-range AFFL match takes priority (its `continue` skips the other
two pattern families), the labeled family beats the bare-numeric test
(they are provably disjoint: a bare-numeric fragment contains no letter,
so `HEIGHT_REGEX` cannot match it), and `"AFFL+2500"` yields display
text `"+2500"`, never `"2500mm"`. -/
theorem c4_pattern_priority :
    (∀ e : Element, (heightCandsOf e).length ≤ 1)
  ∧ (∀ (e : Element) (v : ℕ), afflSearch e.text = some v → 2000 ≤ v ∧ v ≤ 4000 →
      heightCandsOf e =
        [{ elem := { e with text := "+" ++ toString v }, val := v, matched_pattern := "AFFL" }])
  ∧ heightCandsOf ⟨"AFFL+2500", 0, 0, 0, false⟩ =
      [⟨⟨"+2500", 0, 0, 0, false⟩, 2500, "AFFL"⟩] := by
  refine ⟨heightCandsOf_length, ?_, by decide⟩
  intro e v hs hr
  have haffl : afflCandOf e =
      some { elem := { e with text := "+" ++ toString v }, val := v, matched_pattern := "AFFL" } := by
    unfold afflCandOf
    rw [hs]
    dsimp only
    rw [if_pos hr]
  unfold heightCandsOf
  rw [haffl]

/-- Witness for C4: applying the priority statement to `"AFFL+2500"`. -/
theorem c4_pattern_priority_witness :
    heightCandsOf ⟨"AFFL+2500", 3, 7, 1, true⟩ =
      [⟨⟨"+2500", 3, 7, 1, true⟩, 2500, "AFFL"⟩] :=
  c4_pattern_priority.2.1 ⟨"AFFL+2500", 3, 7, 1, true⟩ 2500 (by decide) (by decide)

/-! ### Title extraction (claim C5)

The source checks both patterns inside one loop, element by element: an
earlier fragment matching only the keyword pattern wins over a later
fragment matching the label pattern. -/

/-- Counterexample to claim C5 as stated: the second fragment matches the
drawing-title label pattern (captured group `"LEVEL 2"`), yet
`extract_drawing_title` returns the first fragment's whole text via the
keyword fallback, because the fallback is tested per fragment inside the
same loop, not only after no fragment matches the label pattern. -/
theorem c5_counterexample :
    titleGroup "DRAWING TITLE: LEVEL 2" = some "LEVEL 2"
  ∧ extract_drawing_title
      [⟨"FLOOR PLAN", 0, 0, 0, false⟩, ⟨"DRAWING TITLE: LEVEL 2", 0, 20, 0, false⟩] = "FLOOR PLAN"
  ∧ ("FLOOR PLAN" : String) ≠ "LEVEL 2" := by
  exact ⟨by decide, by decide, by decide⟩

/-- Claim C5, amended: `extract_drawing_title` scans fragments in order
and, for each fragment, first tests the label pattern (returning the
trimmed captured group) and then the keyword pattern (returning the whole
text), stopping at the first fragment matching either; `"Unknown
Drawing"` is returned only when no fragment matches either pattern. -/
theorem c5_title_first_hit :
    (∀ (es : List Element) (i : ℕ),
      (∀ j, j < i → ∀ e : Element, es[j]? = some e →
          titleGroup e.text = none ∧ keywordFound e.text = false) →
      ∀ e : Element, es[i]? = some e →
        (∀ g, titleGroup e.text = some g → extract_drawing_title es = g)
        ∧ (titleGroup e.text = none → keywordFound e.text = true →
            extract_drawing_title es = e.text))
  ∧ (∀ es : List Element,
      (∀ e ∈ es, titleGroup e.text = none ∧ keywordFound e.text = false) →
      extract_drawing_title es = "Unknown Drawing") := by
  constructor
  · intro es
    induction es with
    | nil => intro i hb e he; simp at he
    | cons x xs ih =>
      intro i hb e he
      cases i with
      | zero =>
        simp only [List.getElem?_cons_zero] at he
        obtain rfl := Option.some.inj he
        constructor
        · intro g hg
          simp [extract_drawing_title, hg]
        · intro hnone hkw
          simp [extract_drawing_title, hnone, hkw]
      | succ i2 =>
        have h0 := hb 0 (Nat.succ_pos i2) x (by simp)
        simp only [List.getElem?_cons_succ] at he
        have hrec := ih i2 (fun j hj a ha => hb (j + 1) (by omega) a (by simpa using ha)) e he
        constructor
        · intro g hg
          rw [extract_drawing_title, h0.1, if_neg (by rw [h0.2]; exact Bool.false_ne_true)]
          exact hrec.1 g hg
        · intro hnone hkw
          rw [extract_drawing_title, h0.1, if_neg (by rw [h0.2]; exact Bool.false_ne_true)]
          exact hrec.2 hnone hkw
  · intro es h
    induction es with
    | nil => rfl
    | cons x xs ih =>
      have h0 := h x (List.mem_cons_self _ _)
      rw [extract_drawing_title, h0.1, if_neg (by rw [h0.2]; exact Bool.false_ne_true)]
      exact ih (fun e he => h e (List.mem_cons_of_mem _ he))

/-- Witness for the amended C5: a lone label fragment yields its trimmed
captured group. -/
theorem c5_title_first_hit_witness :
    extract_drawing_title [⟨"DRAWING TITLE: LEVEL 2", 0, 0, 0, false⟩] = "LEVEL 2" :=
  (c5_title_first_hit.1 [⟨"DRAWING TITLE: LEVEL 2", 0, 0, 0, false⟩] 0
    (fun j hj => absurd hj (Nat.not_lt_zero j)) ⟨"DRAWING TITLE: LEVEL 2", 0, 0, 0, false⟩
    rfl).1 "LEVEL 2" (by decide)

/-! ### Apartment-type extraction (claim C6) -/

theorem findSome?_first {α β : Type} (f : α → Option β) :
    ∀ (l : List α) (i : ℕ) (b : β),
      (∀ j, j < i → ∀ a, l[j]? = some a → f a = none) →
      ∀ a, l[i]? = some a → f a = some b → l.findSome? f = some b := by
  intro l
  induction l with
  | nil => intro i b hb a ha; simp at ha
  | cons x xs ih =>
    intro i b hb a ha hfa
    cases i with
    | zero =>
      simp only [List.getElem?_cons_zero] at ha
      obtain rfl := Option.some.inj ha
      simp [List.findSome?_cons, hfa]
    | succ i2 =>
      have h0 : f x = none := hb 0 (Nat.succ_pos i2) x (by simp)
      simp only [List.getElem?_cons_succ] at ha
      have hrec := ih i2 b (fun j hj a2 ha2 => hb (j + 1) (by omega) a2 (by simpa using ha2))
        a ha hfa
      simp [List.findSome?_cons, h0, hrec]

theorem findSome?_none {α β : Type} (f : α → Option β) :
    ∀ l : List α, (∀ a ∈ l, f a = none) → l.findSome? f = none := by
  intro l
  induction l with
  | nil => intro h; rfl
  | cons x xs ih =>
    intro h
    simp [List.findSome?_cons, h x (List.mem_cons_self _ _),
      ih (fun a ha => h a (List.mem_cons_of_mem _ ha))]

/-- Claim C6: the first fragment matching `APT_REGEX` wins with its full
matched span, even when an earlier fragment satisfies only the fallback
(standalone "TYPE letter" and "BED" tokens in the same fragment): the
fallback scan is a separate second loop.  The fallback fragment's text is
returned only when no fragment matches the primary pattern, and
`"Unknown Type"` only when the fallback also finds nothing. -/
theorem c6_primary_beats_fallback :
    (∀ (es : List Element) (i : ℕ) (span : String),
      (∀ j, j < i → ∀ e : Element, es[j]? = some e → aptSearch e.text = none) →
      ∀ e : Element, es[i]? = some e → aptSearch e.text = some span →
        extract_apartment_type es = span)
  ∧ (∀ (es : List Element) (e : Element),
      (∀ x ∈ es, aptSearch x.text = none) →
      es.find? (fun x => aptFallback x.text) = some e →
      extract_apartment_type es = e.text)
  ∧ (∀ es : List Element,
      (∀ x ∈ es, aptSearch x.text = none ∧ aptFallback x.text = false) →
      extract_apartment_type es = "Unknown Type") := by
  refine ⟨?_, ?_, ?_⟩
  · intro es i span hb e he hfa
    have hfs := findSome?_first (fun e : Element => aptSearch e.text) es i span hb e he hfa
    unfold extract_apartment_type
    rw [hfs]
  · intro es e hnone hfind
    have hfs := findSome?_none (fun e : Element => aptSearch e.text) es hnone
    unfold extract_apartment_type
    rw [hfs, hfind]
  · intro es h
    have hfs := findSome?_none (fun e : Element => aptSearch e.text) es
      (fun a ha => (h a ha).1)
    have hfind : es.find? (fun x => aptFallback x.text) = none :=
      List.find?_eq_none.mpr (fun a ha => by rw [(h a ha).2]; exact Bool.false_ne_true)
    unfold extract_apartment_type
    rw [hfs, hfind]

/-- Witness for C6: the first fragment `"TYPE B - BED"` satisfies only
the fallback condition, the second matches the primary pattern; the
primary span `"2 BED TYPE A"` is returned. -/
theorem c6_primary_beats_fallback_witness :
    extract_apartment_type
      [⟨"TYPE B - BED", 0, 0, 0, false⟩, ⟨"2 BED TYPE A", 0, 20, 0, false⟩] = "2 BED TYPE A"
  ∧ aptFallback "TYPE B - BED" = true := by
  constructor
  · apply c6_primary_beats_fallback.1
      [⟨"TYPE B - BED", 0, 0, 0, false⟩, ⟨"2 BED TYPE A", 0, 20, 0, false⟩] 1 "2 BED TYPE A"
    · intro j hj e he
      have hj0 : j = 0 := by omega
      subst hj0
      simp only [List.getElem?_cons_zero] at he
      obtain rfl := Option.some.inj he
      decide
    · exact rfl
    · decide
  · decide

/-! ### Row assembly (claims C8 and C9) -/

theorem assemble_ne_nil (rows : List Row) (b : Bool) (r1 r2 : Row) :
    (let rows1 := if rows.isEmpty && b then rows ++ [r1] else rows
     let rows2 := if rows1.isEmpty then rows1 ++ [r2] else rows1
     rows2) ≠ [] := by
  dsimp only
  cases rows with
  | nil => cases b <;> simp
  | cons x xs => simp

/-- Claim C8: `extract_from_pdf_bytes` never raises to its caller.  A
fragment-extraction failure with message `msg` yields exactly one
degraded row (`Drawing Title = "Error"`, `Apartment Type = "Error"`,
`Room = "Extraction failed: " ++ msg`, `Ceiling Height = "N/A"`) — and on
every input whatsoever the function returns a non-empty, well-formed row
list, so one document's failure cannot abort sibling documents in a
batch. -/
theorem c8_error_isolated :
    (∀ (msg filename : String),
      extract_from_pdf_bytes (.error msg) filename =
        [{ drawing_title := "Error", apartment_type := "Error",
           room := "Extraction failed: " ++ msg, ceiling_height := "N/A",
           source_file := filename }])
  ∧ (∀ (res : Except String (List Element)) (filename : String),
      extract_from_pdf_bytes res filename ≠ []) := by
  constructor
  · intro msg filename
    rfl
  · intro res filename
    cases res with
    | error e => simp [extract_from_pdf_bytes]
    | ok es =>
      simp only [extract_from_pdf_bytes]
      split
      · simp
      · exact assemble_ne_nil _ _ _ _

/-- Claim C9: for a non-empty fragment list yielding zero room
candidates, exactly one diagnostic row is emitted: the
`"Heights Found (No Room Labels)"` row (ceiling height = comma-joined
display texts of the first at-most-3 height candidates) when at least one
height candidate exists, else the `"No Room/Height Data Extracted"` row
with `"N/A"`; the two cases exclude each other. -/
theorem c9_no_rooms_rows (es : List Element) (filename : String) (hne : es ≠ [])
    (hrooms : find_rooms es = []) :
    (find_ceiling_heights es ≠ [] →
      extract_from_pdf_bytes (.ok es) filename =
        [{ drawing_title := extract_drawing_title es,
           apartment_type := extract_apartment_type es,
           room := "Heights Found (No Room Labels)",
           ceiling_height :=
             String.intercalate ", " (((find_ceiling_heights es).take 3).map (fun h => h.elem.text)),
           source_file := filename }])
  ∧ (find_ceiling_heights es = [] →
      extract_from_pdf_bytes (.ok es) filename =
        [{ drawing_title := extract_drawing_title es,
           apartment_type := extract_apartment_type es,
           room := "No Room/Height Data Extracted",
           ceiling_height := "N/A", source_file := filename }]) := by
  have hempty : es.isEmpty = false := by
    cases es with
    | nil => exact absurd rfl hne
    | cons x xs => rfl
  constructor
  · intro hh
    have hhe : (find_ceiling_heights es).isEmpty = false := by
      cases hfc : find_ceiling_heights es with
      | nil => exact absurd hfc hh
      | cons x xs => rfl
    simp [extract_from_pdf_bytes, hempty, hrooms, match_rooms_with_heights, hhe]
  · intro hh
    simp [extract_from_pdf_bytes, hempty, hrooms, match_rooms_with_heights, hh]

/-- Witness for C9: the single fragment `"AFFL+2700"` yields no room
candidate and one height candidate, producing the heights-only
diagnostic row. -/
theorem c9_no_rooms_rows_witness :
    extract_from_pdf_bytes (.ok [⟨"AFFL+2700", 0, 0, 0, false⟩]) "plan.pdf" =
      [{ drawing_title := "Unknown Drawing", apartment_type := "Unknown Type",
         room := "Heights Found (No Room Labels)", ceiling_height := "+2700",
         source_file := "plan.pdf" }] := by
  have h := (c9_no_rooms_rows [⟨"AFFL+2700", 0, 0, 0, false⟩] "plan.pdf"
    (by decide) (by decide)).1 (by decide)
  exact h.trans (by decide)
